import Mathlib

/-!
Shallow embedding of `rigolbin.py` (pyRigolbin): a decoder for Rigol binary
oscilloscope capture files.  Python byte strings are modelled as `List Nat`
(each element a byte value), streams as a byte list plus a cursor, and every
fallible operation returns `Except PyErr`.  Machine integers are `Nat`
(all the fields involved are unsigned), and the x-axis floating-point
arithmetic is modelled over `ℚ`; every concrete value exercised below
(0.0, 0.5, 1.0, ...) is exactly representable in IEEE binary64, where
rational and Python float arithmetic coincide.
-/

/-- Decidable equality of `Except` results, so that concrete decodes can
be checked by `decide`. -/
instance {e a : Type} [DecidableEq e] [DecidableEq a] : DecidableEq (Except e a) := fun x y =>
  match x, y with
  | .error e1, .error e2 => decidable_of_iff (e1 = e2) (by simp)
  | .error _, .ok _ => isFalse (by simp)
  | .ok _, .error _ => isFalse (by simp)
  | .ok v1, .ok v2 => decidable_of_iff (v1 = v2) (by simp)

namespace Rigolbin

/-- The Python exceptions that the source can raise, each constructor one
concrete raise site or runtime error:
* `nameErrorStrm`: `NameError` from the unbound name `strm` in
  `read_from_stream` (line 84);
* `nameErrorXorigin`: `NameError` from the unbound names `xorigin` / `xincr`
  in `RigolBinaryWaveformData.__init__` (lines 102-103);
* `typeErrorArity`: `TypeError` raised at the call
  `RigolBinaryWaveformData.read_from_stream(f, wvdathdr, wvhdr)` (line 170),
  which passes three positional arguments to a classmethod accepting one;
* `valueErrorSize`: the `ValueError` raised by `extra_bytes_after` when the
  reported size is smaller than the struct size (line 20);
* `valueErrorBpp`: the `ValueError` raised by the `bpp` match (line 100);
* `valueErrorStrptime`: `ValueError` from `datetime.strptime` (line 66);
* `structError`: `struct.error` from `struct.unpack` on a buffer whose
  length differs from the format size (also covers
  `dataclasses_struct.from_packed` on a short read);
* `indexError`: `IndexError` from indexing a Python list out of range;
* `unicodeDecodeError`: `UnicodeDecodeError` from `bytes.decode("UTF-8")`. -/
inductive PyErr where
  | nameErrorStrm
  | nameErrorXorigin
  | typeErrorArity
  | valueErrorSize
  | valueErrorBpp
  | valueErrorStrptime
  | structError
  | indexError
  | unicodeDecodeError
deriving DecidableEq

/-- One decoded sample, the result of `struct.unpack` on one element:
format `B` yields a Python int (one unsigned byte), format `f` yields a
Python float decoded from a little-endian 32-bit pattern.  The float is kept
as its 32-bit pattern: equal patterns are exactly the decodes of equal
byte slices, which is the notion of sample equality the claims use. -/
inductive Sample where
  | u8 (n : Nat)
  | f32 (bits : Nat)
deriving DecidableEq

/-- The item format character stored in `self._itemfmt`: `B` or `f`. -/
inductive Fmt where
  | B
  | f
deriving DecidableEq

/-- struct.calcsize of one item of the format. -/
def fmtSize : Fmt → Nat
  | .B => 1
  | .f => 4

/-- Little-endian value of a byte list (first byte least significant). -/
def leBytes (bs : List Nat) : Nat :=
  bs.foldr (fun b acc => b + 256 * acc) 0

/-- `struct.unpack` of a single item: format `B` requires exactly one byte,
format `f` exactly four; any other buffer length raises `struct.error`. -/
def unpackItem (fmt : Fmt) (buf : List Nat) : Except PyErr Sample :=
  match fmt with
  | .B =>
    match buf with
    | [b] => .ok (.u8 b)
    | _ => .error .structError
  | .f =>
    match buf with
    | [b0, b1, b2, b3] => .ok (.f32 (leBytes [b0, b1, b2, b3]))
    | _ => .error .structError

/-- CPython slice semantics `l[a:b]` for ints `a`, `b` (step 1): negative
endpoints count from the end, then both are clamped into `[0, len]`. -/
def pySlice (l : List Nat) (a b : Int) : List Nat :=
  let n : Int := l.length
  let a2 : Int := if a < 0 then max (n + a) 0 else min a n
  let b2 : Int := if b < 0 then max (n + b) 0 else min b n
  (l.drop a2.toNat).take (b2 - a2).toNat

/-- Trailing-NUL strip: `inp.rstrip(bytes([0]))`. -/
def rstripNul (l : List Nat) : List Nat :=
  (l.reverse.dropWhile (fun b => b = 0)).reverse

/-- Is a byte a UTF-8 continuation byte (0x80-0xBF)? -/
def isCont (b : Nat) : Bool := 128 ≤ b && b ≤ 191

/-- UTF-8 decoding, per the standard (overlong encodings, surrogates and
out-of-range code points rejected) — models `bytes.decode("UTF-8")`. -/
def utf8DecodeAux : List Nat → Option (List Char)
  | [] => some []
  | b :: rest =>
    if b < 128 then
      (utf8DecodeAux rest).map (fun cs => Char.ofNat b :: cs)
    else if 194 ≤ b && b ≤ 223 then
      match rest with
      | b2 :: r =>
        if isCont b2 then
          (utf8DecodeAux r).map (fun cs => Char.ofNat ((b - 192) * 64 + (b2 - 128)) :: cs)
        else none
      | _ => none
    else if 224 ≤ b && b ≤ 239 then
      match rest with
      | b2 :: b3 :: r =>
        let okB2 : Bool :=
          if b = 224 then 160 ≤ b2 && b2 ≤ 191
          else if b = 237 then 128 ≤ b2 && b2 ≤ 159
          else isCont b2
        if okB2 && isCont b3 then
          (utf8DecodeAux r).map
            (fun cs => Char.ofNat ((b - 224) * 4096 + (b2 - 128) * 64 + (b3 - 128)) :: cs)
        else none
      | _ => none
    else if 240 ≤ b && b ≤ 244 then
      match rest with
      | b2 :: b3 :: b4 :: r =>
        let okB2 : Bool :=
          if b = 240 then 144 ≤ b2 && b2 ≤ 191
          else if b = 244 then 128 ≤ b2 && b2 ≤ 143
          else isCont b2
        if okB2 && isCont b3 && isCont b4 then
          (utf8DecodeAux r).map
            (fun cs =>
              Char.ofNat ((b - 240) * 262144 + (b2 - 128) * 4096 + (b3 - 128) * 64 + (b4 - 128)) :: cs)
        else none
      | _ => none
    else none

/-- `_raw_str_decode` (lines 27-28): strip trailing NUL bytes, then decode
as UTF-8; invalid encodings raise `UnicodeDecodeError`. -/
def raw_str_decode (inp : List Nat) : Except PyErr String :=
  match utf8DecodeAux (rstripNul inp) with
  | some cs => .ok (String.mk cs)
  | none => .error .unicodeDecodeError

/-- Result of `datetime.strptime` as far as this decoder observes it. -/
structure PyDateTime where
  year : Nat
  month : Nat
  day : Nat
  hour : Nat
  minute : Nat
  second : Nat
deriving DecidableEq

/-- Decimal digit value of a character, if any. -/
def digitVal (c : Char) : Option Nat :=
  if 48 ≤ c.toNat && c.toNat ≤ 57 then some (c.toNat - 48) else none

/-- Two-digit decimal value. -/
def twoDigits (c1 c2 : Char) : Option Nat := do
  let d1 ← digitVal c1
  let d2 ← digitVal c2
  some (d1 * 10 + d2)

/-- Models `datetime.strptime(f"{datestr} {timestr}", "%Y-%m-%d %H:%M:%S")`
(line 66) on canonical zero-padded renderings, the form the format emits
(the stdlib is additionally lenient about field widths; no claim exercises
a non-canonical rendering).  Out-of-range fields raise `ValueError`, as
`strptime` does. -/
def strptime_date_time (datestr timestr : String) : Except PyErr PyDateTime :=
  match datestr.data, timestr.data with
  | [y1, y2, y3, y4, c1, m1, m2, c2, d1, d2], [h1, h2, c3, n1, n2, c4, s1, s2] =>
    if c1 = Char.ofNat 45 && c2 = Char.ofNat 45 && c3 = Char.ofNat 58 && c4 = Char.ofNat 58 then
      match twoDigits y1 y2, twoDigits y3 y4, twoDigits m1 m2, twoDigits d1 d2,
            twoDigits h1 h2, twoDigits n1 n2, twoDigits s1 s2 with
      | some yh, some yl, some mo, some dy, some hh, some mi, some ss =>
        if 1 ≤ mo && mo ≤ 12 && 1 ≤ dy && dy ≤ 31 && hh ≤ 23 && mi ≤ 59 && ss ≤ 61 then
          .ok ⟨yh * 100 + yl, mo, dy, hh, mi, ss⟩
        else .error .valueErrorStrptime
      | _, _, _, _, _, _, _ => .error .valueErrorStrptime
    else .error .valueErrorStrptime
  | _, _ => .error .valueErrorStrptime

/-- `RigolBinaryFileHeader` (lines 30-39): raw fields plus the derived
`version` set by `__post_init__`.  Static struct size 16
(`<2s2sQI`: 2 + 2 + 8 + 4). -/
structure RigolBinaryFileHeader where
  magicraw : List Nat
  versionraw : List Nat
  fsz : Nat
  nwfms : Nat
  version : String
deriving DecidableEq

/-- `dcs.get_struct_size(RigolBinaryFileHeader)`. -/
def fileHeaderSize : Nat := 16

/-- `RigolBinaryFileHeader.from_packed` plus `__post_init__`.  The
underlying `struct.unpack` demands exactly 16 bytes.  The three 8-byte
float fields of the waveform header below are kept as their little-endian
bit patterns. -/
def fhdr_from_packed (p : List Nat) : Except PyErr RigolBinaryFileHeader :=
  if p.length = fileHeaderSize then do
    let version ← raw_str_decode ((p.drop 2).take 2)
    .ok { magicraw := p.take 2
          versionraw := (p.drop 2).take 2
          fsz := leBytes ((p.drop 4).take 8)
          nwfms := leBytes ((p.drop 12).take 4)
          version := version }
  else .error .structError

/-- `RigolBinaryWaveformHeader` (lines 42-67): raw fields (floats as bit
patterns) plus the derived `name`, `model`, `dt` set by `__post_init__`.
Static struct size 128 (`<IIIIIfdddII16s16s24s16s`). -/
structure RigolBinaryWaveformHeader where
  sz : Nat
  tp : Nat
  nbuf : Nat
  npts : Nat
  count : Nat
  xdisprange : Nat
  xdisporigin : Nat
  xincr : Nat
  xorigin : Nat
  xunits : Nat
  yunits : Nat
  dateraw : List Nat
  timeraw : List Nat
  modelraw : List Nat
  nameraw : List Nat
  name : String
  model : String
  dt : PyDateTime
deriving DecidableEq

/-- `dcs.get_struct_size(RigolBinaryWaveformHeader)`:
5*4 + 4 + 3*8 + 2*4 + 16 + 16 + 24 + 16 = 128. -/
def waveformHeaderSize : Nat := 128

/-- `RigolBinaryWaveformHeader.from_packed` plus `__post_init__` (which
decodes `name`, `model` and parses the timestamp; any of those failures
propagates out of `from_packed`). -/
def wfhdr_from_packed (p : List Nat) : Except PyErr RigolBinaryWaveformHeader :=
  if p.length = waveformHeaderSize then do
    let name ← raw_str_decode ((p.drop 112).take 16)
    let model ← raw_str_decode ((p.drop 88).take 24)
    let datestr ← raw_str_decode ((p.drop 56).take 16)
    let timestr ← raw_str_decode ((p.drop 72).take 16)
    let dt ← strptime_date_time datestr timestr
    .ok { sz := leBytes (p.take 4)
          tp := leBytes ((p.drop 4).take 4)
          nbuf := leBytes ((p.drop 8).take 4)
          npts := leBytes ((p.drop 12).take 4)
          count := leBytes ((p.drop 16).take 4)
          xdisprange := leBytes ((p.drop 20).take 4)
          xdisporigin := leBytes ((p.drop 24).take 8)
          xincr := leBytes ((p.drop 32).take 8)
          xorigin := leBytes ((p.drop 40).take 8)
          xunits := leBytes ((p.drop 48).take 4)
          yunits := leBytes ((p.drop 52).take 4)
          dateraw := (p.drop 56).take 16
          timeraw := (p.drop 72).take 16
          modelraw := (p.drop 88).take 24
          nameraw := (p.drop 112).take 16
          name := name
          model := model
          dt := dt }
  else .error .structError

/-- `RigolBinaryWaveformDataHeader` (lines 70-78).  Static struct size 16
(`<IHHQ`: 4 + 2 + 2 + 8). -/
structure RigolBinaryWaveformDataHeader where
  sz : Nat
  tp : Nat
  bpp : Nat
  bufsz : Nat
deriving DecidableEq

/-- `dcs.get_struct_size(RigolBinaryWaveformDataHeader)`. -/
def dataHeaderSize : Nat := 16

/-- `RigolBinaryWaveformDataHeader.from_packed`. -/
def dhdr_from_packed (p : List Nat) : Except PyErr RigolBinaryWaveformDataHeader :=
  if p.length = dataHeaderSize then
    .ok { sz := leBytes (p.take 4)
          tp := leBytes ((p.drop 4).take 2)
          bpp := leBytes ((p.drop 6).take 2)
          bufsz := leBytes ((p.drop 8).take 8) }
  else .error .structError

/-- Interpretation of a 64-bit pattern as an IEEE binary64 value in `ℚ`
(what `struct.unpack` would hand to Python as a float); `none` for the
non-finite patterns (infinities and NaNs). -/
def decode64 (bits : Nat) : Option ℚ :=
  let sgn : Nat := bits / 2 ^ 63 % 2
  let e : Nat := bits / 2 ^ 52 % 2 ^ 11
  let frac : Nat := bits % 2 ^ 52
  if e = 2047 then none
  else
    let mag : ℚ :=
      if e = 0 then (frac : ℚ) * (2 : ℚ) ^ (-(1074 : ℤ))
      else ((2 ^ 52 + frac : ℕ) : ℚ) * (2 : ℚ) ^ ((e : ℤ) - 1075)
    some (if sgn = 1 then -mag else mag)

/-- The byte source: `open(floc, "rb")` positioned at `pos`.  `read n`
returns up to `n` bytes and advances by however many it returned, exactly
as a Python binary file read at EOF does. -/
structure ByteStream where
  data : List Nat
  pos : Nat
deriving DecidableEq

/-- `f.read(n)`. -/
def sread (f : ByteStream) (n : Nat) : List Nat × ByteStream :=
  let chunk := (f.data.drop f.pos).take n
  (chunk, ⟨f.data, f.pos + chunk.length⟩)

/-- `RigolBinaryHeader.extra_bytes_after` (lines 14-22): `szField` is
`self.sz` when the concrete header type has that attribute (`hasattr`),
`none` otherwise; `strsz` is `dcs.get_struct_size(type(self))`. -/
def extra_bytes_after (szField : Option Nat) (strsz : Nat) : Except PyErr Nat :=
  match szField with
  | some sz =>
    if sz < strsz then .error .valueErrorSize
    else .ok (sz - strsz)
  | none => .ok 0

/-- `_read_header` (lines 151-160), generic over the header type `T` just
as the source is: `strsz` is `dcs.get_struct_size(T)`, `from_packed` is
`T.from_packed` (with its `__post_init__`), and `szof` extracts the `sz`
attribute when the type has one.  The source parses `packed_data`, reads
and discards `extra_bytes_after()` bytes, then parses the very same
`packed_data` a second time for the return value. -/
def _read_header {H : Type} (f : ByteStream) (strsz : Nat)
    (from_packed : List Nat → Except PyErr H) (szof : H → Option Nat) :
    Except PyErr (H × ByteStream) :=
  let packed := (sread f strsz).1
  let f1 := (sread f strsz).2
  match from_packed packed with
  | .error e => .error e
  | .ok hdrout =>
    match extra_bytes_after (szof hdrout) strsz with
    | .error e => .error e
    | .ok ebytes =>
      let f2 := if ebytes > 0 then (sread f1 ebytes).2 else f1
      match from_packed packed with
      | .error e => .error e
      | .ok out => .ok (out, f2)

/-- `_read_header(f, RigolBinaryFileHeader)`; the file header has no `sz`
attribute, so `extra_bytes_after` returns 0. -/
def read_header_file (f : ByteStream) : Except PyErr (RigolBinaryFileHeader × ByteStream) :=
  _read_header f fileHeaderSize fhdr_from_packed (fun _ => none)

/-- `_read_header(f, RigolBinaryWaveformHeader)`. -/
def read_header_wf (f : ByteStream) : Except PyErr (RigolBinaryWaveformHeader × ByteStream) :=
  _read_header f waveformHeaderSize wfhdr_from_packed (fun h => some h.sz)

/-- `_read_header(f, RigolBinaryWaveformDataHeader)`. -/
def read_header_data (f : ByteStream) : Except PyErr (RigolBinaryWaveformDataHeader × ByteStream) :=
  _read_header f dataHeaderSize dhdr_from_packed (fun h => some h.sz)

/-- The state of a `RigolBinaryWaveformData` object (lines 81-146): the
fields `__init__` would assign.  `_wfhdr_xorigin` / `_wfhdr_xincr` are the
owning waveform header values that `xiter` reads through `self._wfhdr`
(the header float fields interpreted as rationals, see `decode64`). -/
structure RigolBinaryWaveformData where
  _rawdat : List Nat
  _bpp : Nat
  _itemfmt : Fmt
  _pylist : Option (List Sample)
  _wfhdr_xorigin : ℚ
  _wfhdr_xincr : ℚ
deriving DecidableEq

/-- `RigolBinaryWaveformData.__init__` (lines 87-103).  After the `bpp`
match assigns `self._itemfmt` and `self._pylist = None`, the source
executes `self._xorigin = xorigin` where the name `xorigin` is unbound in
every enclosing scope, so `__init__` raises `NameError` for every
supported width; the constructed object never escapes, which is why this
embedding returns only the error. -/
def dataInit (rawdat : List Nat) (wfhdr : RigolBinaryWaveformHeader)
    (wfdhdr : RigolBinaryWaveformDataHeader) (fhdr : RigolBinaryFileHeader) :
    Except PyErr RigolBinaryWaveformData :=
  match wfdhdr.bpp with
  | 4 => .error .nameErrorXorigin
  | 1 => .error .nameErrorXorigin
  | _ => .error .valueErrorBpp

/-- `RigolBinaryWaveformData.read_from_stream` (lines 82-85) as it would
run if reached with matching arity: its first statement reads the unbound
name `strm`, raising `NameError`. -/
def read_from_stream (wfdhdr : RigolBinaryWaveformDataHeader) :
    Except PyErr (RigolBinaryWaveformData × ByteStream) :=
  .error .nameErrorStrm

/-- The call `RigolBinaryWaveformData.read_from_stream(f, wvdathdr, wvhdr)`
(line 170): three positional arguments are passed to a classmethod whose
signature accepts one (`wfdhdr`) besides `cls`, so CPython raises
`TypeError` before the method body runs. -/
def read_from_stream_call (f : ByteStream) (wvdathdr : RigolBinaryWaveformDataHeader)
    (wvhdr : RigolBinaryWaveformHeader) :
    Except PyErr (RigolBinaryWaveformData × ByteStream) :=
  .error .typeErrorArity

/-- `RigolBinaryWaveformData.__len__` (lines 140-141):
`len(self._rawdat) // self._bpp` (Python floor division; all quantities
are non-negative, so `Nat` division agrees). -/
def dataLen (d : RigolBinaryWaveformData) : Nat :=
  d._rawdat.length / d._bpp

/-- `RigolBinaryWaveformData.__getitem__` (lines 134-138): when
`self._pylist` is set, plain Python list indexing (negative wrap-around,
`IndexError` out of range); otherwise decode the slice
`self._rawdat[idx * self._bpp : idx * self._bpp + self._bpp]`. -/
def dataGetitem (d : RigolBinaryWaveformData) (idx : Int) : Except PyErr Sample :=
  match d._pylist with
  | some pl =>
    let j : Int := if idx < 0 then idx + pl.length else idx
    if h : 0 ≤ j ∧ j < (pl.length : Int) then
      .ok (pl.get ⟨j.toNat, by omega⟩)
    else .error .indexError
  | none =>
    let buf := pySlice d._rawdat (idx * d._bpp) (idx * d._bpp + d._bpp)
    unpackItem d._itemfmt buf

/-- The decode loop shared by `__iter__` (lines 129-132) and `to_list`:
decodes items `i, i + 1, ...` (`n` of them), each from the slice
`self._rawdat[itemind * self._bpp : (itemind + 1) * self._bpp]`. -/
def decodeSeq (d : RigolBinaryWaveformData) : Nat → Nat → Except PyErr (List Sample)
  | _, 0 => .ok []
  | i, n + 1 =>
    match unpackItem d._itemfmt
        (pySlice d._rawdat ((i * d._bpp : Nat) : Int) (((i + 1) * d._bpp : Nat) : Int)) with
    | .error e => .error e
    | .ok v =>
      match decodeSeq d (i + 1) n with
      | .error e => .error e
      | .ok rest => .ok (v :: rest)

/-- `RigolBinaryWaveformData.__iter__` (lines 126-132), as the list of
values the generator yields: when `self._pylist` is set it first yields
the cached list, and — there being no `return` or `else` — control then
falls through to the raw-byte decode loop in every case. -/
def dataIter (d : RigolBinaryWaveformData) : Except PyErr (List Sample) :=
  let pre : List Sample :=
    match d._pylist with
    | some pl => pl
    | none => []
  match decodeSeq d 0 (d._rawdat.length / d._bpp) with
  | .error e => .error e
  | .ok dec => .ok (pre ++ dec)

/-- `RigolBinaryWaveformData.to_list` (lines 143-146):
`struct.unpack(self.arrayfmt, self._rawdat)` demands that the buffer
length equal `struct.calcsize` of `self._itemfmt * len(self)` repetitions
(i.e. `len(self) * self._bpp` for the formats `__init__` assigns), decodes
every element, caches the list in `self._pylist` and returns it.  The
result pairs the returned list with the updated object state. -/
def to_list (d : RigolBinaryWaveformData) :
    Except PyErr (List Sample × RigolBinaryWaveformData) :=
  if d._rawdat.length = dataLen d * fmtSize d._itemfmt then
    match decodeSeq d 0 (dataLen d) with
    | .error e => .error e
    | .ok out => .ok (out, { d with _pylist := some out })
  else .error .structError

/-- The accumulation steps of `xiter` after the initial yield: starting
from `xval`, repeatedly `xval += self._wfhdr.xincr; yield xval`. -/
def xiterFrom (xval xincr : ℚ) : Nat → List ℚ
  | 0 => []
  | n + 1 =>
    let x := xval + xincr
    x :: xiterFrom x xincr n

/-- `RigolBinaryWaveformData.xiter` (lines 105-111), as the list of values
the generator yields: it yields `self._wfhdr.xorigin`, then iterates
`for ind in range(len(self))`, yielding one accumulated value per
iteration. -/
def dataXiter (d : RigolBinaryWaveformData) : List ℚ :=
  d._wfhdr_xorigin :: xiterFrom d._wfhdr_xorigin d._wfhdr_xincr (dataLen d)

/-- `RigolBinaryWaveformData.xlist` (lines 113-115): `list(self.xiter)`. -/
def dataXlist (d : RigolBinaryWaveformData) : List ℚ :=
  dataXiter d

/-- One decoded waveform triple as appended on line 171. -/
def WaveformTriple : Type :=
  RigolBinaryWaveformHeader × RigolBinaryWaveformDataHeader × RigolBinaryWaveformData

instance : DecidableEq WaveformTriple := by
  unfold WaveformTriple
  infer_instance

/-- The body of `for i in range(fhdr.nwfms)` (lines 167-171): read a
waveform header, a data header, then evaluate the line-170 call (which
always raises `TypeError`, see `read_from_stream_call`); the append and
the following iterations are unreachable but modelled as written. -/
def rrb_loop : Nat → ByteStream → List WaveformTriple → Except PyErr (List WaveformTriple)
  | 0, _, acc => .ok acc.reverse
  | n + 1, f, acc =>
    match read_header_wf f with
    | .error e => .error e
    | .ok (wvhdr, f1) =>
      match read_header_data f1 with
      | .error e => .error e
      | .ok (wvdathdr, f2) =>
        match read_from_stream_call f2 wvdathdr wvhdr with
        | .error e => .error e
        | .ok (wvdat, f3) => rrb_loop n f3 ((wvhdr, wvdathdr, wvdat) :: acc)

/-- `read_rigol_bin` (lines 163-173) on the bytes of the file at `floc`. -/
def read_rigol_bin (data : List Nat) :
    Except PyErr (RigolBinaryFileHeader × List WaveformTriple) :=
  match read_header_file ⟨data, 0⟩ with
  | .error e => .error e
  | .ok (fhdr, f1) =>
    match rrb_loop fhdr.nwfms f1 [] with
    | .error e => .error e
    | .ok waveforms => .ok (fhdr, waveforms)

/-! ### Concrete test inputs -/

/-- Little-endian encoding helpers for building test files. -/
def u16le (n : Nat) : List Nat := [n % 256, n / 256 % 256]

def u32le (n : Nat) : List Nat := [n % 256, n / 256 % 256, n / 65536 % 256, n / 16777216 % 256]

def u64le (n : Nat) : List Nat := u32le (n % 4294967296) ++ u32le (n / 4294967296)

/-- An ASCII string as a NUL-padded fixed-width byte field. -/
def padBytes (s : String) (w : Nat) : List Nat :=
  s.data.map Char.toNat ++ List.replicate (w - s.length) 0

/-- A well-formed 128-byte waveform header region: sz=128, tp=0, nbuf=1,
npts=4, count=1, xdisprange=0, xdisporigin=0.0, xincr=1.0 (bit pattern
4607182418800017408 = 0x3FF0000000000000), xorigin=0.0, units 0,
date 2024-01-02, time 03:04:05, model DHO924, name CH1. -/
def c1_wf_header_bytes : List Nat :=
  u32le 128 ++ u32le 0 ++ u32le 1 ++ u32le 4 ++ u32le 1 ++
  u32le 0 ++ u64le 0 ++ u64le 4607182418800017408 ++ u64le 0 ++
  u32le 0 ++ u32le 0 ++
  padBytes "2024-01-02" 16 ++ padBytes "03:04:05" 16 ++
  padBytes "DHO924" 24 ++ padBytes "CH1" 16

/-- The claim C1 synthetic file (164 bytes): file header with magic RG,
version 01, file size 164, one waveform; the waveform header above; a data
header with sz=16, tp=0, bpp=1, bufferByteLength=4; sample bytes
10, 20, 30, 40. -/
def c1_file : List Nat :=
  [82, 71] ++ padBytes "01" 2 ++ u64le 164 ++ u32le 1 ++
  c1_wf_header_bytes ++
  (u32le 16 ++ u16le 0 ++ u16le 1 ++ u64le 4) ++
  [10, 20, 30, 40]

/-- The claim C8 file: identical to `c1_file` except that the file header
declares two waveforms while only one complete block follows. -/
def c8_file : List Nat :=
  [82, 71] ++ padBytes "01" 2 ++ u64le 164 ++ u32le 2 ++
  c1_wf_header_bytes ++
  (u32le 16 ++ u16le 0 ++ u16le 1 ++ u64le 4) ++
  [10, 20, 30, 40]

/-- A parsed waveform header value for feeding constructors directly. -/
def wfh_ex : RigolBinaryWaveformHeader :=
  { sz := 128, tp := 0, nbuf := 1, npts := 4, count := 1, xdisprange := 0,
    xdisporigin := 0, xincr := 4607182418800017408, xorigin := 0,
    xunits := 0, yunits := 0,
    dateraw := padBytes "2024-01-02" 16, timeraw := padBytes "03:04:05" 16,
    modelraw := padBytes "DHO924" 24, nameraw := padBytes "CH1" 16,
    name := "CH1", model := "DHO924",
    dt := ⟨2024, 1, 2, 3, 4, 5⟩ }

/-- A parsed file header value. -/
def fh_ex : RigolBinaryFileHeader :=
  { magicraw := [82, 71], versionraw := [48, 49], fsz := 164, nwfms := 1,
    version := "01" }

/-- Data headers with bytes-per-point 1, 3 and 4. -/
def dh_bpp1 : RigolBinaryWaveformDataHeader := ⟨16, 0, 1, 4⟩

def dh_bpp3 : RigolBinaryWaveformDataHeader := ⟨16, 0, 3, 3⟩

def dh_bpp4 : RigolBinaryWaveformDataHeader := ⟨16, 0, 4, 4⟩

/-- A one-sample buffer state (raw byte 10, bpp=1, not materialized). -/
def c2_buf : RigolBinaryWaveformData := ⟨[10], 1, .B, none, 0, 0⟩

/-- A four-sample buffer state with xOrigin = 1, xIncrement = 1/2. -/
def c3_buf : RigolBinaryWaveformData := ⟨[0, 0, 0, 0], 1, .B, none, 1, 1 / 2⟩

/-- A two-sample buffer state (raw bytes 10, 20, bpp=1). -/
def c9_buf : RigolBinaryWaveformData := ⟨[10, 20], 1, .B, none, 0, 0⟩

/-- A five-byte buffer state with bpp=4 (byte length not divisible). -/
def c7_buf : RigolBinaryWaveformData := ⟨[1, 2, 3, 4, 5], 4, .f, none, 0, 0⟩

/-- A 16-byte data-header region whose declared size is 10 (smaller than
the 16-byte static layout). -/
def c4_bytes : List Nat := u32le 10 ++ u16le 0 ++ u16le 1 ++ u64le 4

/-- A data-header region declaring size 20 (4 opaque trailing bytes),
followed by those 4 bytes and a 4-byte sentinel. -/
def c5_bytes : List Nat :=
  (u32le 20 ++ u16le 0 ++ u16le 1 ++ u64le 4) ++ [99, 99, 99, 99] ++ [1, 2, 3, 4]

/-! ### Helper lemmas -/

/-- Python slicing at non-negative endpoints, in `Nat` terms. -/
theorem pySlice_natCast (l : List Nat) (a b : Nat) :
    pySlice l a b =
      (l.drop (min a l.length)).take (min b l.length - min a l.length) := by
  have ha : ¬ ((a : Int) < 0) := by omega
  have hb : ¬ ((b : Int) < 0) := by omega
  simp only [pySlice, ha, hb, if_false]
  have h1 : (min (a : Int) (l.length : Int)).toNat = min a l.length := by omega
  have h2 : (min (b : Int) (l.length : Int) - min (a : Int) (l.length : Int)).toNat =
      min b l.length - min a l.length := by omega
  rw [h1, h2]

/-- A buffer of exactly the format size unpacks successfully. -/
theorem unpackItem_ok_of_length (fmt : Fmt) (l : List Nat)
    (h : l.length = fmtSize fmt) : ∃ v, unpackItem fmt l = .ok v := by
  cases fmt <;>
    rcases l with _ | ⟨a, _ | ⟨b, _ | ⟨c, _ | ⟨d, _ | ⟨e, t⟩⟩⟩⟩⟩ <;>
    simp_all [unpackItem, fmtSize]

/-- A buffer of any other length raises `struct.error`. -/
theorem unpackItem_err_of_length (fmt : Fmt) (l : List Nat)
    (h : l.length ≠ fmtSize fmt) : unpackItem fmt l = .error .structError := by
  cases fmt <;>
    rcases l with _ | ⟨a, _ | ⟨b, _ | ⟨c, _ | ⟨d, _ | ⟨e, t⟩⟩⟩⟩⟩ <;>
    simp_all [unpackItem, fmtSize]

/-- The decode loop produces exactly as many samples as requested. -/
theorem decodeSeq_ok_length {d : RigolBinaryWaveformData} :
    ∀ {n s : Nat} {out : List Sample}, decodeSeq d s n = .ok out → out.length = n := by
  intro n
  induction n with
  | zero =>
    intro s out h
    simp only [decodeSeq] at h
    cases h
    rfl
  | succ n ih =>
    intro s out h
    simp only [decodeSeq] at h
    cases hu : unpackItem d._itemfmt
        (pySlice d._rawdat ((s * d._bpp : Nat) : Int) (((s + 1) * d._bpp : Nat) : Int)) with
    | error e => rw [hu] at h; cases h
    | ok v =>
      rw [hu] at h
      cases hr : decodeSeq d (s + 1) n with
      | error e => rw [hr] at h; cases h
      | ok rest =>
        rw [hr] at h
        cases h
        simp [ih hr]

/-- Each sample the decode loop produces is the unpack of its slice. -/
theorem decodeSeq_ok_get {d : RigolBinaryWaveformData} :
    ∀ {n s : Nat} {out : List Sample}, decodeSeq d s n = .ok out →
      ∀ (j : Nat) (hj : j < n) (hl : j < out.length),
        unpackItem d._itemfmt
            (pySlice d._rawdat (((s + j) * d._bpp : Nat) : Int)
              ((((s + j) + 1) * d._bpp : Nat) : Int)) =
          .ok (out.get ⟨j, hl⟩) := by
  intro n
  induction n with
  | zero => intro s out h j hj hl; omega
  | succ n ih =>
    intro s out h j hj hl
    simp only [decodeSeq] at h
    cases hu : unpackItem d._itemfmt
        (pySlice d._rawdat ((s * d._bpp : Nat) : Int) (((s + 1) * d._bpp : Nat) : Int)) with
    | error e => rw [hu] at h; cases h
    | ok v =>
      rw [hu] at h
      cases hr : decodeSeq d (s + 1) n with
      | error e => rw [hr] at h; cases h
      | ok rest =>
        rw [hr] at h
        cases h
        cases j with
        | zero => simpa using hu
        | succ j2 =>
          have harg : s + (j2 + 1) = (s + 1) + j2 := by omega
          rw [harg]
          have hl2 : j2 < rest.length := by simpa using hl
          have := ih hr j2 (by omega) hl2
          simpa using this

/-! ### Claim theorems -/

set_option maxRecDepth 8000 in
/-- C1: the claim says the synthetic well-formed file (magic RG, version
01, one waveform, npts=4, xOrigin=0.0, xIncrement=1.0, name CH1, bpp=1,
4 sample bytes 10 20 30 40) decodes to one waveform.  The file is indeed
well-formed — its three headers parse exactly as described — but
`read_rigol_bin` fails on it with `TypeError`: line 170 calls
`read_from_stream` with three positional arguments where its signature
takes one, so the top-level decode never succeeds on any file with at
least one waveform. -/
theorem claim_C1_end_to_end :
    (fhdr_from_packed (c1_file.take 16)).map (fun h => (h.magicraw, h.version, h.nwfms)) =
      .ok ([82, 71], "01", 1) ∧
    (wfhdr_from_packed ((c1_file.drop 16).take 128)).map
        (fun h => (h.name, h.npts, h.xorigin, h.xincr)) =
      .ok ("CH1", 4, 0, 4607182418800017408) ∧
    decode64 0 = some 0 ∧
    decode64 4607182418800017408 = some 1 ∧
    (dhdr_from_packed ((c1_file.drop 144).take 16)).map (fun h => (h.bpp, h.bufsz)) =
      .ok (1, 4) ∧
    c1_file.drop 160 = [10, 20, 30, 40] ∧
    read_rigol_bin c1_file = .error .typeErrorArity := by
  refine ⟨by decide, by decide, by norm_num [decode64], by norm_num [decode64],
    by decide, by decide, by decide⟩

/-- C2: the claim says iteration yields exactly N values both before and
after `to_list`.  Before materialization it does (first conjunct), but
after `to_list` the missing `return` in `__iter__` makes the generator
yield the cached list and then fall through to re-decode the raw bytes,
yielding 2N values: for the one-sample buffer it yields the sample
twice. -/
theorem claim_C2_iter_after_materialize :
    dataIter c2_buf = .ok [.u8 10] ∧
    to_list c2_buf = .ok ([.u8 10], { c2_buf with _pylist := some [.u8 10] }) ∧
    dataIter { c2_buf with _pylist := some [Sample.u8 10] } =
      .ok [.u8 10, .u8 10] := by
  refine ⟨by decide, by decide, by decide⟩

/-- C3: the claim says the x-coordinate sequence has exactly L elements,
`[1.0, 1.5, 2.0, 2.5]` for xOrigin=1, xIncrement=1/2 and 4 samples.  The
code's `xiter` yields the origin and then one more value per loop
iteration over `range(len(self))`, producing L + 1 = 5 elements
`[1, 3/2, 2, 5/2, 3]`. -/
theorem claim_C3_xiter_off_by_one :
    dataLen c3_buf = 4 ∧
    dataXlist c3_buf = [1, 3 / 2, 2, 5 / 2, 3] ∧
    (dataXlist c3_buf).length = dataLen c3_buf + 1 := by
  refine ⟨by decide, by norm_num [dataXlist, dataXiter, xiterFrom, dataLen, c3_buf], by decide⟩

/-- C6: the claim says buffer construction succeeds exactly for
bytesPerPoint 1 or 4 and rejects other widths.  The rejection of bpp=3
(and the width-to-format rule reaching the match arms) does happen, but
for the supported widths 1 and 4 `__init__` then executes
`self._xorigin = xorigin` with `xorigin` unbound, so construction raises
`NameError` instead of succeeding. -/
theorem claim_C6_construction :
    dataInit [10, 20, 30, 40] wfh_ex dh_bpp1 fh_ex = .error .nameErrorXorigin ∧
    dataInit [10, 20, 30] wfh_ex dh_bpp3 fh_ex = .error .valueErrorBpp ∧
    dataInit [1, 2, 3, 4] wfh_ex dh_bpp4 fh_ex = .error .nameErrorXorigin := by
  refine ⟨by decide, by decide, by decide⟩

set_option maxRecDepth 8000 in
/-- C8: the claim says a file declaring waveformCount=2 with one complete
block fails with a truncation error reporting one decoded waveform.  The
code does fail and returns nothing, but with the line-170 `TypeError`
raised already inside the first loop iteration — before any waveform is
decoded and without any truncation-specific error or count (the same
failure hits complete files, see C1). -/
theorem claim_C8_truncation :
    (fhdr_from_packed (c8_file.take 16)).map (fun h => h.nwfms) = .ok 2 ∧
    c8_file.length = 164 ∧
    read_rigol_bin c8_file = .error .typeErrorArity := by
  refine ⟨by decide, by decide, by decide⟩

/-- C7 counterexample: the claim says that when the byte-region length is
divisible by a supported bytesPerPoint, construction succeeds.  A 4-byte
region with bpp=4 (logical length 1, zero remainder) still fails:
`__init__` raises `NameError` on the unbound `xorigin`.  (No divisibility
check exists at all: the 5-byte region with bpp=4 fails with the very same
error, not a `MalformedBufferError`.) -/
theorem claim_C7_counterexample :
    dataInit [0, 0, 0, 0] wfh_ex dh_bpp4 fh_ex = .error .nameErrorXorigin ∧
    dataInit [1, 2, 3, 4, 5] wfh_ex dh_bpp4 fh_ex = .error .nameErrorXorigin := by
  refine ⟨by decide, by decide⟩

/-- C9 counterexample: the claim says an indexed read at any index outside
`[0, L)` raises an error rather than returning a value.  On the two-sample
buffer, index -2 is outside `[0, 2)`, yet the un-materialized read slices
`rawdat[-2:-1]` under Python slice semantics and successfully returns the
first sample. -/
theorem claim_C9_counterexample :
    dataLen c9_buf = 2 ∧ dataGetitem c9_buf (-2) = .ok (.u8 10) := by
  refine ⟨by decide, by decide⟩

/-- C4: for every header carrying a self-reported size field, a declared
size strictly below the static layout size makes `extra_bytes_after` — and
hence header decoding, which calls it — raise the invalid-size
`ValueError`; a declared size at least the layout size never raises it
(the excess is returned, and the generic `_read_header` then completes
successfully). -/
theorem claim_C4_invalid_size :
    (∀ sz strsz : Nat, sz < strsz →
      extra_bytes_after (some sz) strsz = .error .valueErrorSize) ∧
    (∀ sz strsz : Nat, strsz ≤ sz →
      extra_bytes_after (some sz) strsz = .ok (sz - strsz)) ∧
    (∀ {H : Type} (f : ByteStream) (strsz : Nat)
      (fp : List Nat → Except PyErr H) (szof : H → Option Nat) (hdr : H) (sz : Nat),
      fp ((f.data.drop f.pos).take strsz) = .ok hdr →
      szof hdr = some sz → sz < strsz →
      _read_header f strsz fp szof = .error .valueErrorSize) ∧
    (∀ {H : Type} (f : ByteStream) (strsz : Nat)
      (fp : List Nat → Except PyErr H) (szof : H → Option Nat) (hdr : H) (sz : Nat),
      fp ((f.data.drop f.pos).take strsz) = .ok hdr →
      szof hdr = some sz → strsz ≤ sz →
      ∃ f2, _read_header f strsz fp szof = .ok (hdr, f2)) := by
  refine ⟨?_, ?_, ?_, ?_⟩
  · intro sz strsz h
    simp only [extra_bytes_after]
    rw [if_pos h]
  · intro sz strsz h
    simp only [extra_bytes_after]
    rw [if_neg (by omega)]
  · intro H f strsz fp szof hdr sz h1 h2 h3
    simp only [_read_header, sread, h1, extra_bytes_after, h2]
    rw [if_pos h3]
  · intro H f strsz fp szof hdr sz h1 h2 h3
    simp only [_read_header, sread, h1, extra_bytes_after, h2]
    rw [if_neg (by omega)]
    exact ⟨_, rfl⟩

/-- C4 witness: a 16-byte data-header region declaring size 10 is rejected
with the invalid-size error by `read_header_data`, while a declared size of
20 over a 16-byte layout yields 4 extra bytes without error. -/
theorem claim_C4_witness :
    read_header_data ⟨c4_bytes, 0⟩ = .error .valueErrorSize ∧
    extra_bytes_after (some 20) 16 = .ok 4 := by
  constructor
  · exact claim_C4_invalid_size.2.2.1 ⟨c4_bytes, 0⟩ 16 dhdr_from_packed
      (fun h => some h.sz) ⟨10, 0, 1, 4⟩ 10 (by decide) rfl (by decide)
  · exact claim_C4_invalid_size.2.1 20 16 (by decide)

/-- C5: decoding a header whose declared size exceeds the static layout
size by k consumes exactly layout-size + k bytes — the stream cursor lands
immediately after the k discarded trailing bytes — and the returned
header is the parse of the first layout-size bytes alone, unaffected by
the skipped bytes. -/
theorem claim_C5_size_reconciliation {H : Type} (f : ByteStream) (strsz : Nat)
    (fp : List Nat → Except PyErr H) (szof : H → Option Nat) (hdr : H) (k : Nat)
    (h1 : fp ((f.data.drop f.pos).take strsz) = .ok hdr)
    (h2 : szof hdr = some (strsz + k))
    (h3 : strsz + k ≤ f.data.length - f.pos) :
    _read_header f strsz fp szof = .ok (hdr, ⟨f.data, f.pos + (strsz + k)⟩) := by
  simp only [_read_header, sread, h1, extra_bytes_after, h2]
  rw [if_neg (by omega)]
  have hk : strsz + k - strsz = k := by omega
  rw [hk]
  dsimp only
  have hchunk : ((f.data.drop f.pos).take strsz).length = strsz := by
    simp only [List.length_take, List.length_drop]
    omega
  rw [hchunk]
  by_cases hkpos : k > 0
  · rw [if_pos hkpos]
    have hchunk2 : ((f.data.drop (f.pos + strsz)).take k).length = k := by
      simp only [List.length_take, List.length_drop]
      omega
    rw [hchunk2]
    have hpos : f.pos + strsz + k = f.pos + (strsz + k) := by omega
    rw [hpos]
  · rw [if_neg hkpos]
    have hpos : f.pos + strsz = f.pos + (strsz + k) := by omega
    rw [hpos]

/-- C5 witness: a data-header region declaring size 20 (4 opaque trailing
bytes) decodes to the parse of its first 16 bytes with the cursor at
offset 20, right before the sentinel bytes. -/
theorem claim_C5_witness :
    read_header_data ⟨c5_bytes, 0⟩ =
      .ok (⟨20, 0, 1, 4⟩, ⟨c5_bytes, 20⟩) := by
  exact claim_C5_size_reconciliation ⟨c5_bytes, 0⟩ 16 dhdr_from_packed
    (fun h => some h.sz) ⟨20, 0, 1, 4⟩ 4 (by decide) rfl (by decide)

/-- C7 as amended: `__init__` performs no divisibility check at all — its
outcome ignores the byte region entirely (first conjunct), and for every
supported width it is the `NameError` from the unbound `xorigin`, never a
malformed-buffer error (second conjunct); the logical-length operation
returns the byte length divided by bytesPerPoint rounded DOWN (third
conjunct), silently discarding any remainder. -/
theorem claim_C7_amended :
    (∀ (raw raw2 : List Nat) (wfh wfh2 : RigolBinaryWaveformHeader)
      (wdh : RigolBinaryWaveformDataHeader) (fh fh2 : RigolBinaryFileHeader),
      dataInit raw wfh wdh fh = dataInit raw2 wfh2 wdh fh2) ∧
    (∀ (wdh : RigolBinaryWaveformDataHeader) (raw : List Nat)
      (wfh : RigolBinaryWaveformHeader) (fh : RigolBinaryFileHeader),
      wdh.bpp = 1 ∨ wdh.bpp = 4 →
      dataInit raw wfh wdh fh = .error .nameErrorXorigin) ∧
    (∀ (d : RigolBinaryWaveformData) (k r : Nat),
      d._rawdat.length = k * d._bpp + r → r < d._bpp → dataLen d = k) := by
  refine ⟨fun _ _ _ _ _ _ _ => rfl, ?_, ?_⟩
  · intro wdh raw wfh fh h
    rcases h with h | h <;> simp [dataInit, h]
  · intro d k r hlen hr
    have hb : 0 < d._bpp := by omega
    simp only [dataLen, hlen]
    rw [Nat.mul_comm k, Nat.mul_add_div hb, Nat.div_eq_of_lt hr]
    omega

/-- C7 amended witness: construction with bpp=1 fails with the
`NameError`, and the five-byte bpp=4 buffer state has floor length 1. -/
theorem claim_C7_amended_witness :
    dataInit [1, 2, 3] wfh_ex dh_bpp1 fh_ex = .error .nameErrorXorigin ∧
    dataLen c7_buf = 1 :=
  ⟨claim_C7_amended.2.1 dh_bpp1 [1, 2, 3] wfh_ex fh_ex (Or.inl rfl),
   claim_C7_amended.2.2 c7_buf 1 1 (by decide) (by decide)⟩

/-- C9 as amended: on a not-yet-materialized buffer whose stored width
matches its format (as `__init__` would set them), an indexed read at
`i ∈ [0, L)` decodes exactly the `bytesPerPoint`-sized slice at byte
offset `i * bytesPerPoint` and succeeds; a read at `i ≥ L` raises an error
(`struct.error`, the unpack of a short slice).  Negative indices are NOT
uniformly rejected — they follow Python slice semantics and may wrap
around to a valid sample (see the counterexample). -/
theorem claim_C9_amended (d : RigolBinaryWaveformData) (i : Nat)
    (hp : d._pylist = none) (hb : d._bpp = fmtSize d._itemfmt) :
    (i < dataLen d →
      dataGetitem d i =
        unpackItem d._itemfmt ((d._rawdat.drop (i * d._bpp)).take d._bpp) ∧
      ∃ v, dataGetitem d i = .ok v) ∧
    (dataLen d ≤ i → dataGetitem d i = .error .structError) := by
  have hbpos : 0 < d._bpp := by
    rw [hb]; cases d._itemfmt <;> simp [fmtSize]
  have e1 : ((i : Int)) * (d._bpp : Int) = ((i * d._bpp : Nat) : Int) := by
    push_cast; ring
  have e2 : (((i * d._bpp : Nat) : Int)) + (d._bpp : Int) =
      ((i * d._bpp + d._bpp : Nat) : Int) := by
    push_cast; ring
  have hgeti : dataGetitem d i =
      unpackItem d._itemfmt
        (pySlice d._rawdat ((i * d._bpp : Nat) : Int) ((i * d._bpp + d._bpp : Nat) : Int)) := by
    simp only [dataGetitem, hp, e1, e2]
  have hmod := Nat.mod_add_div' d._rawdat.length d._bpp
  have hmlt := Nat.mod_lt d._rawdat.length hbpos
  constructor
  · intro hi
    have hi2 : i < d._rawdat.length / d._bpp := hi
    have hub : i * d._bpp + d._bpp ≤ d._rawdat.length := by
      have h1 : (i + 1) * d._bpp ≤ (d._rawdat.length / d._bpp) * d._bpp :=
        Nat.mul_le_mul_right _ (by omega)
      have h2 : (d._rawdat.length / d._bpp) * d._bpp ≤ d._rawdat.length :=
        Nat.div_mul_le_self _ _
      calc i * d._bpp + d._bpp = (i + 1) * d._bpp := by ring
        _ ≤ (d._rawdat.length / d._bpp) * d._bpp := h1
        _ ≤ d._rawdat.length := h2
    have hlow : i * d._bpp ≤ d._rawdat.length := by omega
    rw [hgeti, pySlice_natCast]
    rw [Nat.min_eq_left hlow, Nat.min_eq_left hub, Nat.add_sub_cancel_left]
    refine ⟨rfl, ?_⟩
    apply unpackItem_ok_of_length
    rw [← hb]
    simp only [List.length_take, List.length_drop]
    omega
  · intro hi
    have hi2 : d._rawdat.length / d._bpp ≤ i := hi
    have hlb : (d._rawdat.length / d._bpp) * d._bpp ≤ i * d._bpp :=
      Nat.mul_le_mul_right _ hi2
    rw [hgeti, pySlice_natCast]
    apply unpackItem_err_of_length
    rw [← hb]
    simp only [List.length_take, List.length_drop]
    omega

/-- C9 amended witness: on the two-sample buffer, index 0 reads the first
byte and index 5 raises the error. -/
theorem claim_C9_amended_witness :
    dataGetitem c9_buf 0 = .ok (.u8 10) ∧
    dataGetitem c9_buf 5 = .error .structError := by
  have h0 := (claim_C9_amended c9_buf 0 rfl rfl).1 (by decide)
  have h5 := (claim_C9_amended c9_buf 5 rfl rfl).2 (by decide)
  exact ⟨h0.1.trans (by decide), h5⟩

/-- C10: the cached and the decode-on-the-fly read paths agree on every
in-range index — if `to_list` succeeds on a fresh buffer, indexed reads
through the materialized state equal the reads on the un-materialized
state. -/
theorem claim_C10_cached_equiv (d d2 : RigolBinaryWaveformData)
    (out : List Sample) (i : Nat)
    (hp : d._pylist = none) (ht : to_list d = .ok (out, d2)) (hi : i < dataLen d) :
    dataGetitem d2 i = dataGetitem d i := by
  unfold to_list at ht
  split at ht
  case isFalse => cases ht
  case isTrue hlen =>
    cases hds : decodeSeq d 0 (dataLen d) with
    | error e => rw [hds] at ht; cases ht
    | ok dec =>
      rw [hds] at ht
      injection ht with hpair
      have hd2 : ({ d with _pylist := some dec } : RigolBinaryWaveformData) = d2 :=
        congrArg Prod.snd hpair
      have hlenout : dec.length = dataLen d := decodeSeq_ok_length hds
      have hil : i < dec.length := by omega
      have hget := decodeSeq_ok_get hds i hi hil
      -- the un-materialized read
      have hrhs : dataGetitem d i = .ok (dec.get ⟨i, hil⟩) := by
        simp only [dataGetitem, hp]
        have hc1 : ((i : Int) * (d._bpp : Int)) = (((0 + i) * d._bpp : Nat) : Int) := by
          push_cast; ring
        have hc2 : ((((0 + i) * d._bpp : Nat) : Int) + (d._bpp : Int)) =
            ((((0 + i) + 1) * d._bpp : Nat) : Int) := by
          push_cast; ring
        rw [hc1, hc2]
        exact hget
      -- the cached read
      have hlhs : dataGetitem { d with _pylist := some dec } i = .ok (dec.get ⟨i, hil⟩) := by
        have hneg : ¬ ((i : Int) < 0) := by omega
        simp only [dataGetitem, hneg, if_false]
        rw [dif_pos (by constructor <;> omega)]
        exact congrArg Except.ok (congrArg dec.get (Fin.ext (by simp)))
      rw [← hd2, hlhs, hrhs]

/-- C10 witness: on the two-sample buffer, the read at index 0 through the
state `to_list` produces equals the read on the fresh state. -/
theorem claim_C10_witness :
    dataGetitem { c9_buf with _pylist := some [Sample.u8 10, Sample.u8 20] } 0 =
      dataGetitem c9_buf 0 :=
  claim_C10_cached_equiv c9_buf
    { c9_buf with _pylist := some [Sample.u8 10, Sample.u8 20] }
    [Sample.u8 10, Sample.u8 20] 0 rfl (by decide) (by decide)

end Rigolbin
